import Mathlib

/-!
Verification development for JTest (src/JTest.h), a single-header C++
unit-testing micro-framework.

Shallow embedding conventions:
* Console output is modelled as a `List String`, one element per line of
  text sent to `std::cout` (the trailing `std::cout << std::endl` after a
  subbatch loop becomes an empty-string line).
* The two build configurations are modelled by a Boolean `ansi`:
  `ansi = true` is the default build, `ansi = false` is the
  `NO_ANSI_CONSOLE` build in which every console-code macro expands to `""`.
* A C++ exception type is modelled by a string `kind`; `catch (T&)`
  matches exactly the kind thrown (the examples throw scalar types, where
  exact matching is the C++ behaviour as well).
* A test body `void(Test&)` mutates `_t.nrOfTestsFailed` and may let an
  exception escape; it is modelled as a function from the incoming counter
  to a `BodyResult` carrying the final counter and whether an exception
  escaped the body (the mutations made before a throw persist, as they do
  in C++).
* `std::map` is modelled as an association list sorted strictly by key
  (`smFind?` / `smInsert` / `smModify`); `std::vector` as a plain list
  with `push_back` appending.
-/

/-- Console code `CONSOLERED`: ANSI bold red, or `""` under `NO_ANSI_CONSOLE`. -/
def CONSOLERED (ansi : Bool) : String := if ansi then "\x1b[1;31m" else ""

/-- Console code `CONSOLEGREEN`. -/
def CONSOLEGREEN (ansi : Bool) : String := if ansi then "\x1b[1;32m" else ""

/-- Console code `CONSOLEYELLOW`. -/
def CONSOLEYELLOW (ansi : Bool) : String := if ansi then "\x1b[1;33m" else ""

/-- Console code `CONSOLEBLUE`. -/
def CONSOLEBLUE (ansi : Bool) : String := if ansi then "\x1b[1;34m" else ""

/-- Console code `CONSOLEMAGENTA`. -/
def CONSOLEMAGENTA (ansi : Bool) : String := if ansi then "\x1b[1;35m" else ""

/-- Console code `CONSOLECYAN`. -/
def CONSOLECYAN (ansi : Bool) : String := if ansi then "\x1b[1;36m" else ""

/-- Console code `CONSOLEDEFAULT`: reset, or `""` under `NO_ANSI_CONSOLE`. -/
def CONSOLEDEFAULT (ansi : Bool) : String := if ansi then "\x1b[0m" else ""

/-- Console code `CONSOLECLEARLASTLINE`: cursor-up + erase-line. -/
def CONSOLECLEARLASTLINE (ansi : Bool) : String := if ansi then "\x1b[A\x1b[2K" else ""

/-- Status tag `RUNNINGSTATUS`. -/
def RUNNINGSTATUS (ansi : Bool) : String :=
  CONSOLECYAN ansi ++ "[RUNNING]" ++ CONSOLEDEFAULT ansi

/-- Status tag `PASSEDSTATUS`. -/
def PASSEDSTATUS (ansi : Bool) : String :=
  CONSOLEGREEN ansi ++ "[PASSED]" ++ CONSOLEDEFAULT ansi

/-- Status tag `FAILEDSTATUS`. -/
def FAILEDSTATUS (ansi : Bool) : String :=
  CONSOLERED ansi ++ "[FAILED]" ++ CONSOLEDEFAULT ansi

/-- Status tag `FLAWEDSTATUS`. -/
def FLAWEDSTATUS (ansi : Bool) : String :=
  CONSOLEYELLOW ansi ++ "[FLAWED]" ++ CONSOLEDEFAULT ansi

/-- Summary line `COMPLETESTATUSF` printed when some tests failed. -/
def COMPLETESTATUSF (ansi : Bool) : String :=
  CONSOLERED ansi ++ "[RESULT]\tSome tests failed." ++ CONSOLEDEFAULT ansi

/-- Summary line `COMPLETESTATUSP` printed when no test failed. -/
def COMPLETESTATUSP (ansi : Bool) : String :=
  CONSOLEGREEN ansi ++ "[RESULT]\tAll test passed!" ++ CONSOLEDEFAULT ansi

/-- Model of a C++ exception: only its dynamic type (`kind`) matters to the
framework, since every handler is `catch (T&)` or `catch (...)`. -/
structure Err where
  kind : String
deriving DecidableEq

/-- An action passed to `EXPECT_LIFE` / `EXPECT_DEATH` / `EXPECT_ERRORTYPE`:
it either completes or raises an `Err`. -/
abbrev JAction : Type := Except Err Unit

/-- Macro `EXPECT_EQ(inp1, inp2)`: increments the failure counter when
`inp1 != inp2`. No try-block appears in the source; the arguments are the
already-evaluated condition values. -/
def EXPECT_EQ {α : Type} [DecidableEq α] (inp1 inp2 : α) (c : Nat) : Nat :=
  if inp1 ≠ inp2 then c + 1 else c

/-- Macro `EXPECT_TRUE(inp1)`: increments the failure counter when `!(inp1)`. -/
def EXPECT_TRUE (inp1 : Bool) (c : Nat) : Nat :=
  if !inp1 then c + 1 else c

/-- Macro `EXPECT_FALSE(inp1)`: increments the failure counter when `inp1`. -/
def EXPECT_FALSE (inp1 : Bool) (c : Nat) : Nat :=
  if inp1 then c + 1 else c

/-- Macro `EXPECT_LIFE(ACTION)`: runs the action inside
`try {...} catch (...) { ++fail; }`. The `.error` branch is the catch-all
handler, so the result is always a normal return (`.ok`). -/
def EXPECT_LIFE (action : JAction) (c : Nat) : Except Err Nat :=
  match action with
  | .ok _ => .ok c
  | .error _ => .ok (c + 1)

/-- Macro `EXPECT_DEATH(ACTION)`: `try { ACTION; ++fail; } catch (...) {}`. -/
def EXPECT_DEATH (action : JAction) (c : Nat) : Except Err Nat :=
  match action with
  | .ok _ => .ok (c + 1)
  | .error _ => .ok c

/-- Macro `EXPECT_ERRORTYPE(ERR_TYPE, ACTION)`:
`try { ACTION; ++fail; } catch (ERR_TYPE&) {} catch (...) { ++fail; }`.
The first handler matches exactly the expected kind. -/
def EXPECT_ERRORTYPE (errType : String) (action : JAction) (c : Nat) : Except Err Nat :=
  match action with
  | .ok _ => .ok (c + 1)
  | .error e => if e.kind = errType then .ok c else .ok (c + 1)

/-- Result of invoking a test body `test.func(test)`: the value of
`test.nrOfTestsFailed` afterwards, and whether an exception escaped the
body (to be caught by the runner's `catch (...)`). -/
structure BodyResult where
  nrOfTestsFailed : Nat
  escaped : Bool

/-- Model of `TestFunction = std::function<void(Test&)>`: from the
counter value at entry to the outcome of the body. -/
abbrev TestFunction : Type := Nat → BodyResult

/-- Struct `Test`: a name, a body, and the failure counter
(`int nrOfTestsFailed = 0`). -/
structure Test where
  name : String
  func : TestFunction
  nrOfTestsFailed : Nat := 0

/-- Classification of a finished test (spec outcome `{Passed, Failed, Flawed}`). -/
inductive Status where
  | Passed
  | Failed
  | Flawed
deriving DecidableEq

/-- Terminal classification exactly as printed by `Subbatch::run`
(lines 179-186): `if (test.nrOfTestsFailed) FAILED else if (fatal) FLAWED
else PASSED`. -/
def classify (nrOfTestsFailed : Nat) (fatal : Bool) : Status :=
  if nrOfTestsFailed ≠ 0 then .Failed
  else if fatal then .Flawed
  else .Passed

/-- Detail text (`mid` in `Subbatch::run`, lines 188-194). -/
def midMessage (nrOfTestsFailed : Nat) (fatal : Bool) : String :=
  if fatal then "test threw exception"
  else (if nrOfTestsFailed ≠ 0 then toString nrOfTestsFailed else "no") ++ " check(s) failed"

/-- Status tag chosen by the if-chain of `Subbatch::run`. -/
def statusTag (ansi : Bool) (nrOfTestsFailed : Nat) (fatal : Bool) : String :=
  match classify nrOfTestsFailed fatal with
  | .Failed => FAILEDSTATUS ansi
  | .Flawed => FLAWEDSTATUS ansi
  | .Passed => PASSEDSTATUS ansi

/-- Outcome of running one test: the runner calls `test.func(test)` with the
counter the `Test` object currently holds (0 for a freshly constructed test). -/
def Test.bodyResult (t : Test) : BodyResult :=
  t.func t.nrOfTestsFailed

/-- Classification of a single test as the runner prints it. -/
def Test.status (t : Test) : Status :=
  classify t.bodyResult.nrOfTestsFailed t.bodyResult.escaped

/-- Detail text of a single test's status line. -/
def Test.mid (t : Test) : String :=
  midMessage t.bodyResult.nrOfTestsFailed t.bodyResult.escaped

/-- Status line printed for one test (the `CONSOLECLEARLASTLINE`, the tag,
and `"\t" << test.name << ": " << mid`, all before one `std::endl`). -/
def Test.statusLine (ansi : Bool) (t : Test) : String :=
  CONSOLECLEARLASTLINE ansi ++ statusTag ansi t.bodyResult.nrOfTestsFailed t.bodyResult.escaped
    ++ "\t" ++ t.name ++ ": " ++ t.mid

/-- Transient line printed before a test runs. -/
def Test.runningLine (ansi : Bool) (t : Test) : String :=
  RUNNINGSTATUS ansi ++ "\t" ++ t.name

/-- Loop body of `Subbatch::run` (lines 166-196): `failures` starts at
`tests.size()` and is decremented once per passed test; two lines of output
per test. -/
def runTests (ansi : Bool) : List Test → Nat → Nat × List String
  | [], failures => (failures, [])
  | test :: rest, failures =>
    let failures1 := if test.status = .Passed then failures - 1 else failures
    let r := runTests ansi rest failures1
    (r.1, test.runningLine ansi :: test.statusLine ansi :: r.2)

/-- Struct `Subbatch`: a `std::vector<Test>`. -/
structure Subbatch where
  tests : List Test

/-- `Subbatch::addTest`: `tests.push_back(test)`. -/
def Subbatch.addTest (sb : Subbatch) (test : Test) : Subbatch :=
  ⟨sb.tests ++ [test]⟩

/-- `Subbatch::run`: returns the number of non-passed tests and the lines
printed (including the final blank line from `std::cout << std::endl`). -/
def Subbatch.run (ansi : Bool) (sb : Subbatch) : Nat × List String :=
  let r := runTests ansi sb.tests sb.tests.length
  (r.1, r.2 ++ [""])

/-- Lookup in the sorted-association-list model of `std::map` (`find`). -/
def smFind? {α : Type} : List (String × α) → String → Option α
  | [], _ => none
  | (k, v) :: rest, key => if k = key then some v else smFind? rest key

/-- Key order of the `std::map<std::string, _>` model: `std::string`'s
`operator<` is lexicographic, modelled as the lexicographic order on the
character lists (`String.data`), which the kernel can evaluate. -/
def keyLt (a b : String) : Prop := a.data < b.data

instance (a b : String) : Decidable (keyLt a b) :=
  inferInstanceAs (Decidable (a.data < b.data))

/-- Insertion (`operator[]` on an absent key, or assignment) in the
`std::map` model: keeps the list strictly sorted by key. -/
def smInsert {α : Type} : List (String × α) → String → α → List (String × α)
  | [], key, v => [(key, v)]
  | (k, w) :: rest, key, v =>
    if keyLt key k then (key, v) :: (k, w) :: rest
    else if key = k then (key, v) :: rest
    else (k, w) :: smInsert rest key v

/-- In-place update of the value at a present key (`iter->second = ...` /
calling a mutator through `operator[]`). -/
def smModify {α : Type} : List (String × α) → String → (α → α) → List (String × α)
  | [], _, _ => []
  | (k, w) :: rest, key, f =>
    if k = key then (k, f w) :: rest else (k, w) :: smModify rest key f

/-- Struct `Batch`: a `std::map<std::string, Subbatch>`. -/
structure Batch where
  subbatches : List (String × Subbatch)

/-- `Batch::addTest` (lines 207-216): create the subbatch on first use,
then push the test into it. -/
def Batch.addTest (b : Batch) (sbatchname : String) (test : Test) : Batch :=
  match smFind? b.subbatches sbatchname with
  | none =>
    ⟨smModify (smInsert b.subbatches sbatchname ⟨[]⟩) sbatchname
      (fun sb => sb.addTest test)⟩
  | some _ =>
    ⟨smModify b.subbatches sbatchname (fun sb => sb.addTest test)⟩

/-- Loop of `Batch::run` over the subbatch map: optional `< name >` header
(empty subbatch name rendered as `MISC`), then the subbatch's own output;
failures are summed. -/
def runSubbatches (ansi printSBNames : Bool) : List (String × Subbatch) → Nat × List String
  | [] => (0, [])
  | (name, sb) :: rest =>
    let header : List String :=
      if printSBNames then
        [CONSOLEBLUE ansi ++ "< " ++ (if name.length = 0 then "MISC" else name)
          ++ " >" ++ CONSOLEDEFAULT ansi]
      else []
    let r := sb.run ansi
    let rRest := runSubbatches ansi printSBNames rest
    (r.1 + rRest.1, header ++ r.2 ++ rRest.2)

/-- `Batch::run` (lines 218-235). `printSBNames` dereferences
`subbatches.begin()`; the `none` branch below corresponds to the
dereference of `begin()` on an empty map, which is undefined behaviour in
C++ and is proved unreachable for registry-built batches. -/
def Batch.run (ansi : Bool) (b : Batch) : Nat × List String :=
  let printSBNames : Bool :=
    decide (b.subbatches.length > 1) ||
      (match b.subbatches.head? with
       | some p => p.1.length != 0
       | none => false)
  runSubbatches ansi printSBNames b.subbatches

/-- Struct `_TestRegistry_Container`: a `std::map<std::string, Batch>`. -/
structure _TestRegistry_Container where
  batches : List (String × Batch)

/-- `_TestRegistry_Container::addTest` (lines 241-251). -/
def _TestRegistry_Container.addTest (c : _TestRegistry_Container)
    (batchname sbatchname : String) (test : Test) : _TestRegistry_Container :=
  match smFind? c.batches batchname with
  | none =>
    ⟨smModify (smInsert c.batches batchname ⟨[]⟩) batchname
      (fun b => b.addTest sbatchname test)⟩
  | some _ =>
    ⟨smModify c.batches batchname (fun b => b.addTest sbatchname test)⟩

/-- `maxBatchSizeName` accumulation in `_TestRegistry_Container::run`. -/
def maxBatchSizeName (batches : List (String × Batch)) : Nat :=
  batches.foldl (fun acc p => if acc > p.1.length then acc else p.1.length) 0

/-- Loop of `_TestRegistry_Container::run` over the batch map: a
`---- name ----` header padded with `'-'` up to the longest batch name,
then the batch's own output; failures are summed. -/
def runBatches (ansi : Bool) (maxN : Nat) : List (String × Batch) → Nat × List String
  | [] => (0, [])
  | (name, b) :: rest =>
    let header := CONSOLEMAGENTA ansi ++ "---- " ++ name ++ " ----"
      ++ String.mk (List.replicate (maxN - name.length) '-') ++ CONSOLEDEFAULT ansi
    let r := b.run ansi
    let rRest := runBatches ansi maxN rest
    (r.1 + rRest.1, header :: (r.2 ++ rRest.2))

/-- `_TestRegistry_Container::run` (lines 253-278). -/
def _TestRegistry_Container.run (ansi : Bool) (c : _TestRegistry_Container) :
    Nat × List String :=
  runBatches ansi (maxBatchSizeName c.batches) c.batches

/-- `TestRegistry::registerTest(batchname, sbatchname, test)`, acting on the
singleton's container. -/
def TestRegistry.registerTest2 (c : _TestRegistry_Container)
    (batchname sbatchname : String) (test : Test) : _TestRegistry_Container :=
  c.addTest batchname sbatchname test

/-- `TestRegistry::registerTest(batchname, test)`: registers under the empty
subbatch name. -/
def TestRegistry.registerTest1 (c : _TestRegistry_Container)
    (batchname : String) (test : Test) : _TestRegistry_Container :=
  c.addTest batchname "" test

/-- `TestRegistry::runAllTests` (lines 300-309): the container's output
followed by the summary line chosen by `if (!failedTests)`. -/
def TestRegistry.runAllTests (ansi : Bool) (c : _TestRegistry_Container) :
    List String :=
  let r := c.run ansi
  r.2 ++ [if r.1 = 0 then COMPLETESTATUSP ansi else COMPLETESTATUSF ansi]

/-- One registration event, as performed during static initialization by the
`JTEST` macros: `JTEST(batch, name)` uses the two-name overload,
`JTEST(name)` the one-name overload (empty subbatch name). -/
inductive RegisterOp where
  | withSub (batchname sbatchname : String) (test : Test)
  | noSub (batchname : String) (test : Test)

/-- Apply one registration to the container. -/
def applyOp (c : _TestRegistry_Container) : RegisterOp → _TestRegistry_Container
  | .withSub b s t => TestRegistry.registerTest2 c b s t
  | .noSub b t => TestRegistry.registerTest1 c b t

/-- The registry after a sequence of `JTEST` registrations, starting from
the empty singleton container. -/
def buildRegistry (ops : List RegisterOp) : _TestRegistry_Container :=
  ops.foldl applyOp ⟨[]⟩

/-! ### Counting helpers and basic lemmas about the runner loops -/

/-- Number of tests of a list the runner classifies `Passed`. -/
def passedCount (ts : List Test) : Nat :=
  ts.countP (fun t => decide (t.status = Status.Passed))

/-- Number of tests of a list the runner does not classify `Passed` (the
quantity `Subbatch::run` returns). -/
def notPassedCount (ts : List Test) : Nat :=
  ts.countP (fun t => decide (t.status ≠ Status.Passed))

/-- Total number of non-passed tests of a batch. -/
def Batch.notPassedTotal (b : Batch) : Nat :=
  (b.subbatches.map (fun p => notPassedCount p.2.tests)).sum

/-- Total number of non-passed tests of the whole registry. -/
def _TestRegistry_Container.notPassedTotal (c : _TestRegistry_Container) : Nat :=
  (c.batches.map (fun p => p.2.notPassedTotal)).sum

theorem passedCount_add_notPassedCount (ts : List Test) :
    passedCount ts + notPassedCount ts = ts.length := by
  induction ts with
  | nil => rfl
  | cons t rest ih =>
    by_cases h : t.status = Status.Passed <;>
      simp [passedCount, notPassedCount, List.countP_cons, h] at * <;> omega

theorem passedCount_le_length (ts : List Test) : passedCount ts ≤ ts.length :=
  List.countP_le_length _

theorem runTests_fst (ansi : Bool) (ts : List Test) (f0 : Nat)
    (h : passedCount ts ≤ f0) :
    (runTests ansi ts f0).1 = f0 - passedCount ts := by
  induction ts generalizing f0 with
  | nil => simp [runTests, passedCount]
  | cons t rest ih =>
    have hc : passedCount (t :: rest)
        = passedCount rest + (if t.status = Status.Passed then 1 else 0) := by
      by_cases hp : t.status = Status.Passed <;> simp [passedCount, List.countP_cons, hp]
    by_cases hp : t.status = Status.Passed
    · have h1 : passedCount rest ≤ f0 - 1 := by
        rw [hc, if_pos hp] at h; omega
      rw [hc, if_pos hp]
      simp [runTests, hp, ih (f0 - 1) h1]
      omega
    · have h1 : passedCount rest ≤ f0 := by
        rw [hc, if_neg hp] at h; omega
      rw [hc, if_neg hp]
      simp [runTests, hp, ih f0 h1]

theorem runTests_snd_length (ansi : Bool) (ts : List Test) (f0 : Nat) :
    (runTests ansi ts f0).2.length = 2 * ts.length := by
  induction ts generalizing f0 with
  | nil => simp [runTests]
  | cons t rest ih =>
    simp [runTests, ih]
    ring

theorem runTests_mem (ansi : Bool) {t : Test} {ts : List Test} (f0 : Nat)
    (h : t ∈ ts) : t.statusLine ansi ∈ (runTests ansi ts f0).2 := by
  induction ts generalizing f0 with
  | nil => cases h
  | cons u rest ih =>
    rcases List.mem_cons.mp h with h | h
    · subst h
      exact List.mem_cons_of_mem _ (List.mem_cons_self _ _)
    · exact List.mem_cons_of_mem _ (List.mem_cons_of_mem _ (ih _ h))

theorem subbatchRun_fst (ansi : Bool) (sb : Subbatch) :
    (sb.run ansi).1 = notPassedCount sb.tests := by
  have h := runTests_fst ansi sb.tests sb.tests.length (passedCount_le_length _)
  have hsum := passedCount_add_notPassedCount sb.tests
  simp only [Subbatch.run, h]
  omega

theorem subbatchRun_snd_length (ansi : Bool) (sb : Subbatch) :
    (sb.run ansi).2.length = 2 * sb.tests.length + 1 := by
  simp [Subbatch.run, runTests_snd_length]

theorem subbatchRun_mem (ansi : Bool) {t : Test} {sb : Subbatch}
    (h : t ∈ sb.tests) : t.statusLine ansi ∈ (sb.run ansi).2 := by
  simp only [Subbatch.run]
  exact List.mem_append_left _ (runTests_mem ansi _ h)

theorem runSubbatches_fst (ansi printSBNames : Bool)
    (l : List (String × Subbatch)) :
    (runSubbatches ansi printSBNames l).1
      = (l.map (fun p => notPassedCount p.2.tests)).sum := by
  induction l with
  | nil => simp [runSubbatches]
  | cons p rest ih =>
    simp [runSubbatches, ih, subbatchRun_fst]

theorem runSubbatches_mem (ansi printSBNames : Bool) {t : Test}
    {l : List (String × Subbatch)} {q : String × Subbatch}
    (hq : q ∈ l) (ht : t ∈ q.2.tests) :
    t.statusLine ansi ∈ (runSubbatches ansi printSBNames l).2 := by
  induction l with
  | nil => cases hq
  | cons p rest ih =>
    rcases List.mem_cons.mp hq with h | h
    · subst h
      simp only [runSubbatches]
      exact List.mem_append_left _ (List.mem_append_right _ (subbatchRun_mem ansi ht))
    · simp only [runSubbatches]
      exact List.mem_append_right _ (ih h)

theorem batchRun_fst (ansi : Bool) (b : Batch) :
    (b.run ansi).1 = b.notPassedTotal := by
  simp [Batch.run, runSubbatches_fst, Batch.notPassedTotal]

theorem batchRun_mem (ansi : Bool) {t : Test} {b : Batch}
    {q : String × Subbatch} (hq : q ∈ b.subbatches) (ht : t ∈ q.2.tests) :
    t.statusLine ansi ∈ (b.run ansi).2 := by
  simp only [Batch.run]
  exact runSubbatches_mem ansi _ hq ht

theorem runBatches_fst (ansi : Bool) (maxN : Nat) (l : List (String × Batch)) :
    (runBatches ansi maxN l).1 = (l.map (fun p => (p.2.run ansi).1)).sum := by
  induction l with
  | nil => simp [runBatches]
  | cons p rest ih => simp [runBatches, ih]

theorem runBatches_mem (ansi : Bool) (maxN : Nat) {t : Test}
    {l : List (String × Batch)} {p : String × Batch}
    (hp : p ∈ l) {q : String × Subbatch} (hq : q ∈ p.2.subbatches)
    (ht : t ∈ q.2.tests) :
    t.statusLine ansi ∈ (runBatches ansi maxN l).2 := by
  induction l with
  | nil => cases hp
  | cons u rest ih =>
    rcases List.mem_cons.mp hp with h | h
    · subst h
      simp only [runBatches]
      exact List.mem_cons_of_mem _
        (List.mem_append_left _ (batchRun_mem ansi hq ht))
    · simp only [runBatches]
      exact List.mem_cons_of_mem _ (List.mem_append_right _ (ih h))

theorem container_run_fst (ansi : Bool) (c : _TestRegistry_Container) :
    (c.run ansi).1 = c.notPassedTotal := by
  simp [_TestRegistry_Container.run, runBatches_fst,
    _TestRegistry_Container.notPassedTotal, batchRun_fst]

theorem container_run_mem (ansi : Bool) {t : Test} {c : _TestRegistry_Container}
    {p : String × Batch} (hp : p ∈ c.batches) {q : String × Subbatch}
    (hq : q ∈ p.2.subbatches) (ht : t ∈ q.2.tests) :
    t.statusLine ansi ∈ (c.run ansi).2 := by
  simp only [_TestRegistry_Container.run]
  exact runBatches_mem ansi _ hp hq ht

theorem completep_ne_completef (ansi : Bool) :
    COMPLETESTATUSP ansi ≠ COMPLETESTATUSF ansi := by
  cases ansi <;> decide

/-! ### Lemmas about the sorted association-list model of `std::map` -/

theorem keyLt_trans {a b c : String} (h1 : keyLt a b) (h2 : keyLt b c) :
    keyLt a c := lt_trans h1 h2

theorem keyLt_irrefl (a : String) : ¬ keyLt a a := lt_irrefl _

theorem keyLt_of_not_keyLt_of_ne {a b : String} (h1 : ¬ keyLt a b) (h2 : a ≠ b) :
    keyLt b a := by
  rcases lt_trichotomy a.data b.data with h | h | h
  · exact absurd h h1
  · exact absurd (by cases a; cases b; exact congrArg String.mk h) h2
  · exact h

theorem smFind?_smInsert_self {α : Type} (m : List (String × α)) (k : String)
    (v : α) : smFind? (smInsert m k v) k = some v := by
  induction m with
  | nil => simp [smInsert, smFind?]
  | cons p rest ih =>
    obtain ⟨k', w⟩ := p
    by_cases h2 : k = k'
    · subst h2
      simp [smInsert, keyLt_irrefl, smFind?]
    · by_cases h1 : keyLt k k'
      · simp [smInsert, h1, smFind?]
      · have h3 : k' ≠ k := fun h => h2 h.symm
        simp [smInsert, h1, h2, smFind?, h3, ih]

theorem smFind?_smInsert_other {α : Type} (m : List (String × α))
    {k k' : String} (v : α) (h : k' ≠ k) :
    smFind? (smInsert m k v) k' = smFind? m k' := by
  have hne : k ≠ k' := fun hh => h hh.symm
  induction m with
  | nil => simp [smInsert, smFind?, hne]
  | cons p rest ih =>
    obtain ⟨k0, w⟩ := p
    by_cases h1 : keyLt k k0
    · simp [smInsert, h1, smFind?, hne]
    · by_cases h2 : k = k0
      · subst h2
        simp [smInsert, h1, smFind?, hne]
      · simp [smInsert, h1, h2, smFind?, ih]

theorem smFind?_smModify_self {α : Type} (m : List (String × α)) (k : String)
    (f : α → α) : smFind? (smModify m k f) k = (smFind? m k).map f := by
  induction m with
  | nil => simp [smModify, smFind?]
  | cons p rest ih =>
    obtain ⟨k0, w⟩ := p
    by_cases h1 : k0 = k
    · simp [smModify, h1, smFind?]
    · simp [smModify, h1, smFind?, ih]

theorem smFind?_smModify_other {α : Type} (m : List (String × α))
    {k k' : String} (f : α → α) (h : k' ≠ k) :
    smFind? (smModify m k f) k' = smFind? m k' := by
  have hne : k ≠ k' := fun hh => h hh.symm
  induction m with
  | nil => simp [smModify]
  | cons p rest ih =>
    obtain ⟨k0, w⟩ := p
    by_cases h1 : k0 = k
    · subst h1
      have hne0 : k0 ≠ k' := hne
      simp [smModify, smFind?, hne0]
    · by_cases h2 : k0 = k'
      · simp [smModify, h1, smFind?, h2, h]
      · simp [smModify, h1, smFind?, h2, ih]

theorem smModify_smInsert_none {α : Type} {m : List (String × α)} {k : String}
    (v : α) (f : α → α) (h : smFind? m k = none) :
    smModify (smInsert m k v) k f = smInsert m k (f v) := by
  induction m with
  | nil => simp [smInsert, smModify]
  | cons p rest ih =>
    obtain ⟨k0, w⟩ := p
    have hk0 : k0 ≠ k := by
      intro hh
      simp [smFind?, hh] at h
    have hne : k ≠ k0 := fun hh => hk0 hh.symm
    have hrest : smFind? rest k = none := by
      simpa [smFind?, hk0] using h
    by_cases h1 : keyLt k k0
    · simp [smInsert, h1, smModify, hk0]
    · simp [smInsert, h1, hne, smModify, hk0, ih hrest]

theorem mem_smInsert {α : Type} {m : List (String × α)} {k : String} {v : α}
    {p : String × α} (h : p ∈ smInsert m k v) : p = (k, v) ∨ p ∈ m := by
  induction m with
  | nil => simpa [smInsert] using h
  | cons q rest ih =>
    obtain ⟨k0, w⟩ := q
    by_cases h2 : k = k0
    · subst h2
      simp [smInsert, keyLt_irrefl, List.mem_cons] at h ⊢
      tauto
    · by_cases h1 : keyLt k k0
      · simp [smInsert, h1, List.mem_cons] at h ⊢
        tauto
      · simp [smInsert, h1, h2, List.mem_cons] at h ⊢
        rcases h with h | h
        · tauto
        · rcases ih h with h | h
          · exact Or.inl h
          · tauto

theorem mem_smModify {α : Type} {m : List (String × α)} {k : String}
    {f : α → α} {p : String × α} (h : p ∈ smModify m k f) :
    p ∈ m ∨ ∃ w, (k, w) ∈ m ∧ p = (k, f w) := by
  induction m with
  | nil => simp [smModify] at h
  | cons q rest ih =>
    obtain ⟨k0, w0⟩ := q
    by_cases h1 : k0 = k
    · subst h1
      simp [smModify] at h
      rcases h with h | h
      · exact Or.inr ⟨w0, List.mem_cons_self _ _, h⟩
      · exact Or.inl (List.mem_cons_of_mem _ h)
    · simp [smModify, h1] at h
      rcases h with h | h
      · exact Or.inl (by simp [h])
      · rcases ih h with h | ⟨w, hw, hp⟩
        · exact Or.inl (List.mem_cons_of_mem _ h)
        · exact Or.inr ⟨w, List.mem_cons_of_mem _ hw, hp⟩

theorem smInsert_ne_nil {α : Type} (m : List (String × α)) (k : String)
    (v : α) : smInsert m k v ≠ [] := by
  cases m with
  | nil => simp [smInsert]
  | cons p rest =>
    obtain ⟨k0, w⟩ := p
    simp only [smInsert]
    split
    · simp
    · split <;> simp

theorem smModify_length {α : Type} (m : List (String × α)) (k : String)
    (f : α → α) : (smModify m k f).length = m.length := by
  induction m with
  | nil => rfl
  | cons p rest ih =>
    obtain ⟨k0, w⟩ := p
    by_cases h1 : k0 = k <;> simp [smModify, h1, ih]

theorem ne_nil_of_smFind?_some {α : Type} {m : List (String × α)} {k : String}
    {v : α} (h : smFind? m k = some v) : m ≠ [] := by
  cases m with
  | nil => simp [smFind?] at h
  | cons p rest => simp

/-! ### Lemmas about test registration -/

theorem Batch.addTest_none (b : Batch) (s : String) (t : Test)
    (h : smFind? b.subbatches s = none) :
    (b.addTest s t).subbatches
      = smInsert b.subbatches s (Subbatch.addTest ⟨[]⟩ t) := by
  simp only [Batch.addTest, h]
  exact smModify_smInsert_none _ _ h

theorem Batch.addTest_some (b : Batch) (s : String) (t : Test) {sb : Subbatch}
    (h : smFind? b.subbatches s = some sb) :
    (b.addTest s t).subbatches
      = smModify b.subbatches s (fun sb => sb.addTest t) := by
  simp only [Batch.addTest, h]

theorem container_addTest_none (c : _TestRegistry_Container) (g s : String)
    (t : Test) (h : smFind? c.batches g = none) :
    (c.addTest g s t).batches
      = smInsert c.batches g (Batch.addTest ⟨[]⟩ s t) := by
  simp only [_TestRegistry_Container.addTest, h]
  exact smModify_smInsert_none _ _ h

theorem container_addTest_some (c : _TestRegistry_Container) (g s : String)
    (t : Test) {b : Batch} (h : smFind? c.batches g = some b) :
    (c.addTest g s t).batches
      = smModify c.batches g (fun b => b.addTest s t) := by
  simp only [_TestRegistry_Container.addTest, h]

theorem Batch.addTest_subbatches_ne_nil (b : Batch) (s : String) (t : Test) :
    (b.addTest s t).subbatches ≠ [] := by
  rcases hfind : smFind? b.subbatches s with _ | sb
  · rw [Batch.addTest_none _ _ _ hfind]
    exact smInsert_ne_nil _ _ _
  · rw [Batch.addTest_some _ _ _ hfind]
    intro hnil
    apply ne_nil_of_smFind?_some hfind
    have hlen := smModify_length b.subbatches s (fun sb => sb.addTest t)
    rw [hnil] at hlen
    exact List.length_eq_zero.mp hlen.symm

theorem addTest_batches_nonempty {c : _TestRegistry_Container}
    (hc : ∀ p ∈ c.batches, p.2.subbatches ≠ []) (g s : String) (t : Test) :
    ∀ p ∈ (c.addTest g s t).batches, p.2.subbatches ≠ [] := by
  intro p hp
  rcases hfind : smFind? c.batches g with _ | b
  · rw [container_addTest_none _ _ _ _ hfind] at hp
    rcases mem_smInsert hp with h | h
    · subst h
      exact Batch.addTest_subbatches_ne_nil _ _ _
    · exact hc _ h
  · rw [container_addTest_some _ _ _ _ hfind] at hp
    rcases mem_smModify hp with h | ⟨w, hw, hpw⟩
    · exact hc _ h
    · subst hpw
      exact Batch.addTest_subbatches_ne_nil _ _ _

theorem foldl_batches_nonempty (ops : List RegisterOp) :
    ∀ (c : _TestRegistry_Container), (∀ p ∈ c.batches, p.2.subbatches ≠ []) →
      ∀ p ∈ (ops.foldl applyOp c).batches, p.2.subbatches ≠ [] := by
  induction ops with
  | nil => intro c hc; simpa using hc
  | cons op rest ih =>
    intro c hc
    simp only [List.foldl_cons]
    apply ih
    cases op with
    | withSub g s t => exact addTest_batches_nonempty hc g s t
    | noSub g t => exact addTest_batches_nonempty hc g "" t

/-! ### Iteration-order lemmas: maps keep their keys strictly sorted -/

/-- Strict sortedness by key of a `std::map` model. -/
def keyOrdered {α : Type} (m : List (String × α)) : Prop :=
  List.Pairwise (fun a b => keyLt a.1 b.1) m

theorem keyOrdered_smInsert {α : Type} {m : List (String × α)} (k : String)
    (v : α) (h : keyOrdered m) : keyOrdered (smInsert m k v) := by
  induction m with
  | nil => simp [smInsert, keyOrdered]
  | cons p rest ih =>
    obtain ⟨k0, w⟩ := p
    rw [keyOrdered, List.pairwise_cons] at h
    obtain ⟨hh, hrest⟩ := h
    by_cases h2 : k = k0
    · subst h2
      simp only [smInsert, if_neg (keyLt_irrefl k), if_pos rfl]
      exact List.pairwise_cons.mpr ⟨hh, hrest⟩
    · by_cases h1 : keyLt k k0
      · simp only [smInsert, if_pos h1]
        refine List.pairwise_cons.mpr ⟨?_, List.pairwise_cons.mpr ⟨hh, hrest⟩⟩
        intro b hb
        rcases List.mem_cons.mp hb with hb | hb
        · subst hb; exact h1
        · exact keyLt_trans h1 (hh _ hb)
      · simp only [smInsert, if_neg h1, if_neg h2]
        refine List.pairwise_cons.mpr ⟨?_, ih hrest⟩
        intro b hb
        rcases mem_smInsert hb with hb | hb
        · subst hb
          exact keyLt_of_not_keyLt_of_ne h1 h2
        · exact hh _ hb

theorem keyOrdered_smModify {α : Type} {m : List (String × α)} (k : String)
    (f : α → α) (h : keyOrdered m) : keyOrdered (smModify m k f) := by
  induction m with
  | nil => simpa [smModify] using h
  | cons p rest ih =>
    obtain ⟨k0, w⟩ := p
    rw [keyOrdered, List.pairwise_cons] at h
    obtain ⟨hh, hrest⟩ := h
    by_cases h1 : k0 = k
    · simp only [smModify, if_pos h1]
      exact List.pairwise_cons.mpr ⟨hh, hrest⟩
    · simp only [smModify, if_neg h1]
      refine List.pairwise_cons.mpr ⟨?_, ih hrest⟩
      intro b hb
      rcases mem_smModify hb with hb | ⟨w', hw', hbw⟩
      · exact hh _ hb
      · subst hbw
        show keyLt k0 k
        exact hh (k, w') hw'

theorem Batch.addTest_keyOrdered {b : Batch} (s : String) (t : Test)
    (h : keyOrdered b.subbatches) : keyOrdered (b.addTest s t).subbatches := by
  rcases hfind : smFind? b.subbatches s with _ | sb
  · rw [Batch.addTest_none _ _ _ hfind]
    exact keyOrdered_smInsert _ _ h
  · rw [Batch.addTest_some _ _ _ hfind]
    exact keyOrdered_smModify _ _ h

/-- Both levels of map in the registry are strictly sorted by key. -/
def registryOrdered (c : _TestRegistry_Container) : Prop :=
  keyOrdered c.batches ∧ ∀ p ∈ c.batches, keyOrdered p.2.subbatches

theorem addTest_registryOrdered {c : _TestRegistry_Container} (g s : String)
    (t : Test) (h : registryOrdered c) :
    registryOrdered (c.addTest g s t) := by
  obtain ⟨h1, h2⟩ := h
  rcases hfind : smFind? c.batches g with _ | b
  · constructor
    · rw [container_addTest_none _ _ _ _ hfind]
      exact keyOrdered_smInsert _ _ h1
    · intro p hp
      rw [container_addTest_none _ _ _ _ hfind] at hp
      rcases mem_smInsert hp with hp | hp
      · subst hp
        exact Batch.addTest_keyOrdered s t (by simp [keyOrdered])
      · exact h2 _ hp
  · constructor
    · rw [container_addTest_some _ _ _ _ hfind]
      exact keyOrdered_smModify _ _ h1
    · intro p hp
      rw [container_addTest_some _ _ _ _ hfind] at hp
      rcases mem_smModify hp with hp | ⟨w, hw, hpw⟩
      · exact h2 _ hp
      · subst hpw
        exact Batch.addTest_keyOrdered s t (h2 _ hw)

theorem foldl_registryOrdered (ops : List RegisterOp) :
    ∀ (c : _TestRegistry_Container), registryOrdered c →
      registryOrdered (ops.foldl applyOp c) := by
  induction ops with
  | nil => intro c hc; simpa using hc
  | cons op rest ih =>
    intro c hc
    simp only [List.foldl_cons]
    apply ih
    cases op with
    | withSub g s t => exact addTest_registryOrdered g s t hc
    | noSub g t => exact addTest_registryOrdered g "" t hc

theorem buildRegistry_ordered (ops : List RegisterOp) :
    registryOrdered (buildRegistry ops) := by
  apply foldl_registryOrdered
  exact ⟨by simp [keyOrdered], by simp⟩

/-! ### Example tests used for witnesses and counterexamples -/

/-- Example body: records no failure and returns normally. -/
def tPassEx : Test := ⟨("tpass"), fun c => ⟨c, false⟩, 0⟩

/-- Example body: records two failures and returns normally
(e.g. two failing `EXPECT_EQ` checks). -/
def tFail2Ex : Test := ⟨("tfail"), fun c => ⟨c + 2, false⟩, 0⟩

/-- Example body: records no failure but lets an exception escape. -/
def tThrowEx : Test := ⟨("tthrow"), fun c => ⟨c, true⟩, 0⟩

/-- Example body: records one failure (a failing `EXPECT_EQ`) and then lets
an exception escape. -/
def tMixEx : Test := ⟨("tmix"), fun c => ⟨c + 1, true⟩, 0⟩

/-! ### Claim C1 -/

/-- C1 counterexample: `tMixEx`'s body escapes with the failure counter at
1, and `Subbatch::run` classifies it `Failed` (the counter test comes first
in the if-chain), not `Flawed` — refuting "classification is Flawed
regardless of the counter value". -/
theorem jtestC1_counterexample :
    tMixEx.bodyResult.escaped = true ∧ tMixEx.bodyResult.nrOfTestsFailed = 1 ∧
    tMixEx.status = Status.Failed ∧ Status.Failed ≠ Status.Flawed := by
  decide

/-- C1 amended: when an error escapes the body, the printed classification
is `Flawed` only if the failure counter is 0 at that moment; with a
positive counter the tag is `Failed`. In both cases the detail message is
"test threw exception" and the test is never classified `Passed` (so it
always counts as failing in the aggregate). -/
theorem jtestC1_flawed_only_when_counter_zero (c : Nat) :
    midMessage c true = "test threw exception" ∧
    (c = 0 → classify c true = Status.Flawed) ∧
    (0 < c → classify c true = Status.Failed) ∧
    classify c true ≠ Status.Passed := by
  refine ⟨by simp [midMessage], ?_, ?_, ?_⟩
  · intro h
    subst h
    simp [classify]
  · intro h
    have : c ≠ 0 := by omega
    simp [classify, this]
  · by_cases h : c = 0 <;> simp [classify, h]

theorem jtestC1_witness :
    classify 0 true = Status.Flawed ∧ classify 2 true = Status.Failed :=
  ⟨(jtestC1_flawed_only_when_counter_zero 0).2.1 rfl,
   (jtestC1_flawed_only_when_counter_zero 2).2.2.1 (by decide)⟩

/-! ### Claim C2 -/

/-- C2: a test whose body completes (no escaping error) is classified
`Passed` when its counter is 0, and `Failed` when its counter is `k > 0`,
with the status line reporting exactly `k` in "k check(s) failed". -/
theorem jtestC2_completed_body (ansi : Bool) (t : Test)
    (h : t.bodyResult.escaped = false) :
    (t.bodyResult.nrOfTestsFailed = 0 → t.status = Status.Passed) ∧
    (∀ k, t.bodyResult.nrOfTestsFailed = k → 0 < k →
      t.status = Status.Failed ∧
      t.mid = toString k ++ " check(s) failed" ∧
      t.statusLine ansi = CONSOLECLEARLASTLINE ansi ++ FAILEDSTATUS ansi ++ "\t"
        ++ t.name ++ ": " ++ (toString k ++ " check(s) failed")) := by
  constructor
  · intro h0
    simp [Test.status, classify, h0, h]
  · intro k hk hkpos
    have hne : t.bodyResult.nrOfTestsFailed ≠ 0 := by omega
    have hkne : k ≠ 0 := by omega
    refine ⟨?_, ?_, ?_⟩
    · simp [Test.status, classify, hne]
    · simp [Test.mid, midMessage, h, hne, hk, hkne]
    · simp [Test.statusLine, statusTag, classify, hne, Test.mid, midMessage, h,
        hk, hkne, String.append_assoc]

theorem jtestC2_witness :
    tPassEx.status = Status.Passed ∧
    (tFail2Ex.status = Status.Failed ∧
      tFail2Ex.mid = toString 2 ++ " check(s) failed" ∧
      tFail2Ex.statusLine false = CONSOLECLEARLASTLINE false ++ FAILEDSTATUS false
        ++ "\t" ++ tFail2Ex.name ++ ": " ++ (toString 2 ++ " check(s) failed")) :=
  ⟨(jtestC2_completed_body false tPassEx rfl).1 rfl,
   (jtestC2_completed_body false tFail2Ex rfl).2 2 rfl (by decide)⟩

/-! ### Claim C5 -/

/-- C5: `EXPECT_ERRORTYPE(Kind, action)` records 0 failures when the action
raises exactly the expected kind; exactly 1 failure when it raises a
different kind; exactly 1 failure when it completes without raising. In
every case the macro itself returns normally (result is `.ok`): no error
escapes the assertion. -/
theorem jtestC5_errortype (errType : String) (action : JAction) (c : Nat) :
    (∀ e, action = Except.error e → e.kind = errType →
      EXPECT_ERRORTYPE errType action c = Except.ok c) ∧
    (∀ e, action = Except.error e → e.kind ≠ errType →
      EXPECT_ERRORTYPE errType action c = Except.ok (c + 1)) ∧
    (action = Except.ok () → EXPECT_ERRORTYPE errType action c = Except.ok (c + 1)) := by
  refine ⟨?_, ?_, ?_⟩
  · intro e he hk
    subst he
    simp [EXPECT_ERRORTYPE, hk]
  · intro e he hk
    subst he
    simp [EXPECT_ERRORTYPE, hk]
  · intro he
    subst he
    simp [EXPECT_ERRORTYPE]

theorem jtestC5_witness :
    EXPECT_ERRORTYPE ("int") (Except.error ⟨("int")⟩) 0 = Except.ok 0 ∧
    EXPECT_ERRORTYPE ("int") (Except.error ⟨("double")⟩) 0 = Except.ok 1 ∧
    EXPECT_ERRORTYPE ("int") (Except.ok ()) 0 = Except.ok 1 :=
  ⟨(jtestC5_errortype ("int") (Except.error ⟨("int")⟩) 0).1 ⟨("int")⟩ rfl rfl,
   (jtestC5_errortype ("int") (Except.error ⟨("double")⟩) 0).2.1 ⟨("double")⟩ rfl
     (by decide),
   (jtestC5_errortype ("int") (Except.ok ()) 0).2.2 rfl⟩

/-! ### Claim C7 -/

/-- C7: every assertion primitive either leaves the enclosing test's failure
counter unchanged or increments it by exactly one; the action-running
assertions (`EXPECT_LIFE`, `EXPECT_DEATH`, `EXPECT_ERRORTYPE`) always
return normally (`.ok`), i.e. the raised error is consumed by the macro's
handlers and never escapes; and, being pure functions of the counter, the
assertions print nothing and transfer no control. -/
theorem jtestC7_assertions :
    (∀ (α : Type) (inst : DecidableEq α) (a b : α) (c : Nat),
      @EXPECT_EQ α inst a b c = c ∨ @EXPECT_EQ α inst a b c = c + 1) ∧
    (∀ (b : Bool) (c : Nat), EXPECT_TRUE b c = c ∨ EXPECT_TRUE b c = c + 1) ∧
    (∀ (b : Bool) (c : Nat), EXPECT_FALSE b c = c ∨ EXPECT_FALSE b c = c + 1) ∧
    (∀ (a : JAction) (c : Nat),
      EXPECT_LIFE a c = Except.ok c ∨ EXPECT_LIFE a c = Except.ok (c + 1)) ∧
    (∀ (a : JAction) (c : Nat),
      EXPECT_DEATH a c = Except.ok c ∨ EXPECT_DEATH a c = Except.ok (c + 1)) ∧
    (∀ (k : String) (a : JAction) (c : Nat),
      EXPECT_ERRORTYPE k a c = Except.ok c
        ∨ EXPECT_ERRORTYPE k a c = Except.ok (c + 1)) := by
  refine ⟨?_, ?_, ?_, ?_, ?_, ?_⟩
  · intro α inst a b c
    by_cases h : a = b <;> simp [EXPECT_EQ, h]
  · intro b c
    cases b <;> simp [EXPECT_TRUE]
  · intro b c
    cases b <;> simp [EXPECT_FALSE]
  · intro a c
    cases a <;> simp [EXPECT_LIFE]
  · intro a c
    cases a <;> simp [EXPECT_DEATH]
  · intro k a c
    cases a with
    | ok _ => simp [EXPECT_ERRORTYPE]
    | error e => by_cases h : e.kind = k <;> simp [EXPECT_ERRORTYPE, h]

/-! ### Claim C3 -/

/-- C3: errors are contained at the per-test boundary. For every registry —
including one whose test bodies let errors escape — each registered test's
status line appears in the output of `runAllTests` (so every test after a
flawed one is still executed), and the output always ends with a final
summary line. The status line `Test.statusLine` is a function of the one
test alone, so an error escaping one body can influence no other test's
classification. -/
theorem jtestC3_isolation (ansi : Bool) (c : _TestRegistry_Container) :
    (∀ p, p ∈ c.batches → ∀ q, q ∈ p.2.subbatches → ∀ t, t ∈ q.2.tests →
      t.statusLine ansi ∈ TestRegistry.runAllTests ansi c) ∧
    ((TestRegistry.runAllTests ansi c).getLast? = some (COMPLETESTATUSP ansi) ∨
      (TestRegistry.runAllTests ansi c).getLast? = some (COMPLETESTATUSF ansi)) := by
  constructor
  · intro p hp q hq t ht
    simp only [TestRegistry.runAllTests]
    exact List.mem_append_left _ (container_run_mem ansi hp hq ht)
  · simp only [TestRegistry.runAllTests]
    rw [List.getLast?_concat]
    by_cases h : (c.run ansi).1 = 0
    · left
      simp [h]
    · right
      simp [h]

/-- Registry with one batch holding one anonymous subbatch whose first test
escapes with an error and whose second completes cleanly. -/
def cC3 : _TestRegistry_Container :=
  ⟨[(("batchA"), ⟨[(("") , ⟨[tThrowEx, tPassEx]⟩)]⟩)]⟩

theorem jtestC3_witness :
    tPassEx.statusLine false ∈ TestRegistry.runAllTests false cC3 ∧
    ((TestRegistry.runAllTests false cC3).getLast? = some (COMPLETESTATUSP false) ∨
      (TestRegistry.runAllTests false cC3).getLast? = some (COMPLETESTATUSF false)) :=
  ⟨(jtestC3_isolation false cC3).1 _ (List.Mem.head _) _ (List.Mem.head _) _
      (List.Mem.tail _ (List.Mem.head _)),
   (jtestC3_isolation false cC3).2⟩

/-! ### Claim C4 -/

/-- C4: the run-level verdict is the sum, over all batches and subbatches,
of per-test failing counts: `_TestRegistry_Container::run` returns exactly
the number of tests not classified `Passed`, and `runAllTests` ends with
the "all passed" summary line if and only if that total is zero (otherwise
it ends with the "some tests failed" line). -/
theorem jtestC4_aggregate (ansi : Bool) (c : _TestRegistry_Container) :
    (c.run ansi).1 = c.notPassedTotal ∧
    ((TestRegistry.runAllTests ansi c).getLast? = some (COMPLETESTATUSP ansi)
      ↔ c.notPassedTotal = 0) := by
  have hfst := container_run_fst ansi c
  refine ⟨hfst, ?_⟩
  simp only [TestRegistry.runAllTests]
  rw [List.getLast?_concat]
  constructor
  · intro h
    by_cases hz : (c.run ansi).1 = 0
    · omega
    · simp [hz] at h
      exact absurd h.symm (completep_ne_completef ansi)
  · intro h
    have hz : (c.run ansi).1 = 0 := by omega
    simp [hz]

/-! ### Claim C9 -/

/-- C9 amended: the only reporting toggle in the core is `NO_ANSI_CONSOLE`
(modelled by `ansi = false`), and it is pure presentation: the failure
count returned by `Subbatch::run` does not depend on it, and the number of
emitted lines is `2·n + 1` for `n` tests in both modes — per-test status
lines are never suppressed, not even for passing tests. The core has no
terse mode. -/
theorem jtestC9_ansi_presentation_only (ansi : Bool) (sb : Subbatch) :
    (sb.run ansi).1 = (sb.run true).1 ∧
    (sb.run ansi).2.length = 2 * sb.tests.length + 1 := by
  refine ⟨?_, subbatchRun_snd_length ansi sb⟩
  rw [subbatchRun_fst, subbatchRun_fst]

/-- Fully passing one-test subbatch. -/
def sbC9 : Subbatch := ⟨[tPassEx]⟩

/-- C9 counterexample: under both build configurations, a fully passing
subbatch emits three lines, among them the per-test status line — not
"exactly one summary line and no per-test lines". No mode of the core
suppresses per-test lines. -/
theorem jtestC9_counterexample :
    (Subbatch.run true sbC9).1 = 0 ∧ (Subbatch.run false sbC9).1 = 0 ∧
    (Subbatch.run true sbC9).2.length = 3 ∧
    (Subbatch.run false sbC9).2.length = 3 ∧
    tPassEx.statusLine true ∈ (Subbatch.run true sbC9).2 ∧
    tPassEx.statusLine false ∈ (Subbatch.run false sbC9).2 ∧
    (3 : Nat) ≠ 1 := by
  decide

/-! ### Claim C6 -/

/-- C6: a `(group, subgroup)` pair addresses a single collection that
registration appends to — adding a test to an existing subbatch of an
existing batch leaves the found batch in place and extends the found
subbatch's test vector by the new test; two different group names give two
independent batches, each holding its own test; and the registry's failure
total is the independent sum of the per-batch failure totals. -/
theorem jtestC6_registration :
    (∀ (c : _TestRegistry_Container) (g s : String) (t : Test) (b : Batch)
        (sb : Subbatch),
      smFind? c.batches g = some b → smFind? b.subbatches s = some sb →
      smFind? (c.addTest g s t).batches g = some (b.addTest s t) ∧
      smFind? (b.addTest s t).subbatches s = some (Subbatch.mk (sb.tests ++ [t]))) ∧
    (∀ (g1 g2 : String) (t1 t2 : Test), g1 ≠ g2 →
      smFind? (((⟨[]⟩ : _TestRegistry_Container).addTest g1 ("") t1).addTest
          g2 ("") t2).batches g1 = some ⟨[(("") , ⟨[t1]⟩)]⟩ ∧
      smFind? (((⟨[]⟩ : _TestRegistry_Container).addTest g1 ("") t1).addTest
          g2 ("") t2).batches g2 = some ⟨[(("") , ⟨[t2]⟩)]⟩) ∧
    (∀ (ansi : Bool) (c : _TestRegistry_Container),
      (c.run ansi).1 = (c.batches.map (fun p => (p.2.run ansi).1)).sum) := by
  refine ⟨?_, ?_, ?_⟩
  · intro c g s t b sb hb hsb
    constructor
    · rw [container_addTest_some _ _ _ _ hb, smFind?_smModify_self, hb,
        Option.map_some']
    · rw [Batch.addTest_some _ _ _ hsb, smFind?_smModify_self, hsb,
        Option.map_some']
      rfl
  · intro g1 g2 t1 t2 hne
    have hc1 : ((⟨[]⟩ : _TestRegistry_Container).addTest g1 ("") t1).batches
        = smInsert [] g1 (Batch.addTest ⟨[]⟩ ("") t1) :=
      container_addTest_none _ _ _ _ rfl
    have hfind : smFind?
        (((⟨[]⟩ : _TestRegistry_Container).addTest g1 ("") t1).batches) g2
        = none := by
      rw [hc1]
      simp [smInsert, smFind?, hne]
    have hc2 : (((⟨[]⟩ : _TestRegistry_Container).addTest g1 ("") t1).addTest
        g2 ("") t2).batches
        = smInsert (((⟨[]⟩ : _TestRegistry_Container).addTest g1 ("") t1).batches)
            g2 (Batch.addTest ⟨[]⟩ ("") t2) :=
      container_addTest_none _ _ _ _ hfind
    constructor
    · rw [hc2, smFind?_smInsert_other _ _ hne, hc1, smFind?_smInsert_self]
      rfl
    · rw [hc2, smFind?_smInsert_self]
      rfl
  · intro ansi c
    simp only [_TestRegistry_Container.run]
    exact runBatches_fst ansi _ c.batches

/-- Concrete batch with one subbatch `s` holding one test. -/
def bC6 : Batch := ⟨[(("s"), ⟨[tPassEx]⟩)]⟩

/-- Concrete registry with one batch `g`. -/
def cC6 : _TestRegistry_Container := ⟨[(("g"), bC6)]⟩

theorem jtestC6_witness :
    (smFind? (cC6.addTest ("g") ("s") tFail2Ex).batches ("g")
        = some (bC6.addTest ("s") tFail2Ex) ∧
      smFind? (bC6.addTest ("s") tFail2Ex).subbatches ("s")
        = some (Subbatch.mk ([tPassEx] ++ [tFail2Ex]))) ∧
    (smFind? (((⟨[]⟩ : _TestRegistry_Container).addTest ("gA") ("") tPassEx).addTest
        ("gB") ("") tFail2Ex).batches ("gA") = some ⟨[(("") , ⟨[tPassEx]⟩)]⟩ ∧
      smFind? (((⟨[]⟩ : _TestRegistry_Container).addTest ("gA") ("") tPassEx).addTest
        ("gB") ("") tFail2Ex).batches ("gB") = some ⟨[(("") , ⟨[tFail2Ex]⟩)]⟩) :=
  ⟨jtestC6_registration.1 cC6 ("g") ("s") tFail2Ex bC6 ⟨[tPassEx]⟩ rfl rfl,
   jtestC6_registration.2.1 ("gA") ("gB") tPassEx tFail2Ex (by decide)⟩

/-! ### Claim C8 -/

/-- Names of the registry's batches in iteration order. -/
def batchKeys (c : _TestRegistry_Container) : List String :=
  c.batches.map Prod.fst

/-- Names of the tests of subbatch `s` of batch `g`, in iteration order. -/
def testNames (c : _TestRegistry_Container) (g s : String) : List String :=
  match smFind? c.batches g with
  | some b =>
    match smFind? b.subbatches s with
    | some sb => sb.tests.map Test.name
    | none => []
  | none => []

/-- Test named `zb`. -/
def tC8zb : Test := ⟨("zb"), fun c => ⟨c, false⟩, 0⟩

/-- Test named `aa`. -/
def tC8aa : Test := ⟨("aa"), fun c => ⟨c, false⟩, 0⟩

/-- Registrations: batch `zz` first, then batch `aa` receiving test `zb`
followed by test `aa`. -/
def opsC8 : List RegisterOp :=
  [.withSub ("zz") ("") tPassEx,
   .withSub ("aa") ("") tC8zb,
   .withSub ("aa") ("") tC8aa]

/-- C8 counterexample: in one registry, batches iterate lexicographically
(`aa` before the earlier-registered `zz`), while tests inside a subbatch
iterate in insertion order (`zb` before the lexicographically-smaller
`aa`) — so neither insertion order nor lexicographic order is applied
uniformly at all three levels. -/
theorem jtestC8_counterexample :
    batchKeys (buildRegistry opsC8) = [("aa"), ("zz")] ∧
    testNames (buildRegistry opsC8) ("aa") ("") = [("zb"), ("aa")] ∧
    ¬ ((batchKeys (buildRegistry opsC8) = [("zz"), ("aa")] ∧
        testNames (buildRegistry opsC8) ("aa") ("") = [("zb"), ("aa")]) ∨
       (batchKeys (buildRegistry opsC8) = [("aa"), ("zz")] ∧
        testNames (buildRegistry opsC8) ("aa") ("") = [("aa"), ("zb")])) := by
  decide

/-- C8 amended: the `std::map` levels (batches in the registry, subbatches
in a batch) always iterate in strictly increasing key order, while the
`std::vector` of tests inside a subbatch keeps insertion order (`push_back`
appends). -/
theorem jtestC8_two_orders (ops : List RegisterOp) :
    keyOrdered (buildRegistry ops).batches ∧
    (∀ p ∈ (buildRegistry ops).batches, keyOrdered p.2.subbatches) ∧
    (∀ (sb : Subbatch) (t : Test), (sb.addTest t).tests = sb.tests ++ [t]) := by
  obtain ⟨h1, h2⟩ := buildRegistry_ordered ops
  exact ⟨h1, h2, fun sb t => rfl⟩

/-- Registrations giving one batch `g` with subbatches `a` and `b`. -/
def opsC8w : List RegisterOp :=
  [.withSub ("g") ("a") tPassEx, .withSub ("g") ("b") tFail2Ex]

/-- The batch entry `opsC8w` produces. -/
def pC8w : String × Batch :=
  (("g"), ⟨[(("a"), ⟨[tPassEx]⟩), (("b"), ⟨[tFail2Ex]⟩)]⟩)

theorem jtestC8_witness :
    keyOrdered (buildRegistry opsC8w).batches ∧
    keyOrdered pC8w.2.subbatches ∧
    (Subbatch.addTest ⟨[tPassEx]⟩ tFail2Ex).tests = [tPassEx] ++ [tFail2Ex] :=
  ⟨(jtestC8_two_orders opsC8w).1,
   (jtestC8_two_orders opsC8w).2.1 pC8w (List.Mem.head _),
   (jtestC8_two_orders opsC8w).2.2 ⟨[tPassEx]⟩ tFail2Ex⟩

/-! ### Claim C10 -/

/-- C10: every batch reachable in a registry built by `registerTest` calls
contains at least one subbatch — a `Batch` is only ever created inside an
`addTest` that immediately inserts into it — so the dereference of
`subbatches.begin()` at the start of `Batch::run` never touches an empty
map (`head?` is always `some`). -/
theorem jtestC10_batches_nonempty (ops : List RegisterOp) :
    ∀ p ∈ (buildRegistry ops).batches,
      p.2.subbatches ≠ [] ∧ p.2.subbatches.head?.isSome = true := by
  intro p hp
  have h := foldl_batches_nonempty ops ⟨[]⟩ (by simp) p hp
  refine ⟨h, ?_⟩
  cases hsb : p.2.subbatches with
  | nil => exact absurd hsb h
  | cons q rest => rfl

/-- One registration through the single-name `JTEST` overload. -/
def opsC10 : List RegisterOp := [.noSub ("g") tPassEx]

/-- The batch entry `opsC10` produces. -/
def pC10 : String × Batch := (("g"), ⟨[(("") , ⟨[tPassEx]⟩)]⟩)

theorem jtestC10_witness :
    pC10.2.subbatches ≠ [] ∧ pC10.2.subbatches.head?.isSome = true :=
  jtestC10_batches_nonempty opsC10 pC10 (List.Mem.head _)
